import Mathlib

/-!
Verification development for the Marketing_WebPage repository
(`src/github_mcpserver.py` and `src/github_mcpserver_fixed.py`).

The development shallowly embeds the two components the specification calls
core: the natural-language command extractor `parse_prompt_for_tool_calls`
(github_mcpserver.py, lines 264-409) and the `push_project` sync engine
(github_mcpserver_fixed.py lines 61-150, plus the syntactically valid part
of github_mcpserver.py's push branch, lines 583-630).

The extractor is embedded via a small backtracking regular-expression
interpreter (`Re`/`mtch`) whose semantics mirror Python's `re` backtracking
order (ordered alternation, greedy/lazy quantifiers, leftmost `search`,
case-insensitive literal comparison for ASCII as used by `re.IGNORECASE`);
each source regex is transcribed into a `Re` value.
-/

namespace GithubMcp

/-- Character classes and constructs needed by the source regexes:
single-character class, sequencing, ordered alternation, greedy/lazy star,
capturing group, zero-width lookahead, and the `$` end anchor (end of
input, or a single trailing newline, as in Python without MULTILINE). -/
inductive Re where
  | eps : Re
  | chcls : (Char → Bool) → Re
  | seq : Re → Re → Re
  | alt : Re → Re → Re
  | star : Bool → Re → Re
  | grp : Nat → Re → Re
  | look : Re → Re
  | eos : Re

/-- Captures recorded during one match attempt: group index paired with the
captured substring.  Later participations are prepended, so lookup takes
the first hit (Python keeps the last participation; no group in the
transcribed regexes participates twice). -/
abbrev Caps := List (Nat × String)

/-- ASCII lower-casing of a character code, modelling `re.IGNORECASE`
comparison for the ASCII-only literals appearing in the source patterns. -/
def asciiLower (c : Char) : Nat :=
  let n := c.toNat
  if 65 ≤ n ∧ n ≤ 90 then n + 32 else n

/-- Python `\s` restricted to ASCII whitespace (space, tab, LF, VT, FF, CR);
every whitespace character in the analysed prompts is one of these. -/
def isWsChar (c : Char) : Bool :=
  c.toNat = 32 || c.toNat = 9 || c.toNat = 10 || c.toNat = 11 ||
  c.toNat = 12 || c.toNat = 13

/-- The character class `['\"]` of the source patterns. -/
def isQuoteChar (c : Char) : Bool := c.toNat = 39 || c.toNat = 34

/-- The character class `[^'\"]` of the source patterns. -/
def notQuoteChar (c : Char) : Bool := !(isQuoteChar c)

/-- Backtracking matcher in continuation-passing style.  `fuel` bounds the
recursion depth (every constructor step and star unfolding consumes one
unit); the transcribed patterns on the bounded prompts stay far below the
fuel supplied by `reSearch`.  `alt` tries its left arm first, a greedy
`star` tries to iterate first, a lazy `star` tries to exit first — the
backtracking order of Python's `re` engine. -/
def mtch : Nat → Re → List Char → Caps → (List Char → Caps → Option Caps) →
    Option Caps
  | 0, _, _, _, _ => none
  | Nat.succ fuel, r, s, c, k =>
    match r with
    | Re.eps => k s c
    | Re.chcls p =>
      match s with
      | [] => none
      | ch :: rest => if p ch then k rest c else none
    | Re.seq a b => mtch fuel a s c (fun s2 c2 => mtch fuel b s2 c2 k)
    | Re.alt a b =>
      match mtch fuel a s c k with
      | some c2 => some c2
      | none => mtch fuel b s c k
    | Re.star lazyQ a =>
      if lazyQ then
        match k s c with
        | some c2 => some c2
        | none =>
          mtch fuel a s c (fun s2 c2 => mtch fuel (Re.star lazyQ a) s2 c2 k)
      else
        match mtch fuel a s c
            (fun s2 c2 => mtch fuel (Re.star lazyQ a) s2 c2 k) with
        | some c2 => some c2
        | none => k s c
    | Re.grp i a =>
      mtch fuel a s c (fun s2 c2 =>
        k s2 ((i, String.mk (s.take (s.length - s2.length))) :: c2))
    | Re.look a =>
      match mtch fuel a s c (fun _ c2 => some c2) with
      | some c2 => k s c2
      | none => none
    | Re.eos =>
      match s with
      | [] => k s c
      | [ch] => if ch.toNat = 10 then k s c else none
      | _ => none

/-- Leftmost search: try a full match at each start position in turn, the
first successful position (with that attempt's captures) winning, exactly
as `re.search`. -/
def reSearchAux (r : Re) : List Char → Option Caps
  | [] => mtch 100000 r [] [] (fun _ c => some c)
  | ch :: rest =>
    match mtch 100000 r (ch :: rest) [] (fun _ c => some c) with
    | some c => some c
    | none => reSearchAux r rest

/-- Search a pattern in a character list (the prompt). -/
def reSearch (r : Re) (s : List Char) : Option Caps := reSearchAux r s

/-- Group lookup, `match.group(i)`: `none` when the group did not
participate in the match. -/
def capGet (c : Caps) (i : Nat) : Option String :=
  match c.find? (fun p => p.1 == i) with
  | some p => some p.2
  | none => none

/-- Sequence a list of patterns. -/
def cat (l : List Re) : Re := l.foldr Re.seq Re.eps

/-- Case-insensitive literal word, one `chcls` per character; the pattern
text is written in lowercase and compared against the ASCII-lowered input
character. -/
def litRe (w : String) : Re :=
  cat (w.toList.map (fun tc => Re.chcls (fun c => asciiLower c == tc.toNat)))

/-- The source fragment `['\"]?`. -/
def quoteOpt : Re := Re.alt (Re.chcls isQuoteChar) Re.eps

/-- The source fragment `\s*`. -/
def wsStar : Re := Re.star false (Re.chcls isWsChar)

/-- The source fragment `\s+`. -/
def wsPlus : Re := Re.seq (Re.chcls isWsChar) wsStar

/-- The source fragment `\s*?` (lazy). -/
def wsStarLazy : Re := Re.star true (Re.chcls isWsChar)

/-- A greedy optional `(...)?`. -/
def optG (r : Re) : Re := Re.alt r Re.eps

/-- A capturing group `([^'\"]+)` with index `i`. -/
def nonQuoteGrp (i : Nat) : Re :=
  Re.grp i (Re.seq (Re.chcls notQuoteChar) (Re.star false (Re.chcls notQuoteChar)))

/-- The lazy any-character group `([\s\S]*?)` with index `i`. -/
def anyLazyGrp (i : Nat) : Re :=
  Re.grp i (Re.star true (Re.chcls (fun _ => true)))

/-- Source regex (line 278):
`create\s+a\s+repo(?:sitory)?\s+with\s*(?:the\s+name\s*)?['\"]?([^'\"]+)['\"]?(\s*private)?(\s*with\s+a\s*README)?`. -/
def createRepoRe : Re :=
  cat [litRe "create", wsPlus, litRe "a", wsPlus, litRe "repo",
    optG (litRe "sitory"), wsPlus, litRe "with", wsStar,
    optG (cat [litRe "the", wsPlus, litRe "name", wsStar]),
    quoteOpt, nonQuoteGrp 1, quoteOpt,
    optG (Re.grp 2 (cat [wsStar, litRe "private"])),
    optG (Re.grp 3 (cat [wsStar, litRe "with", wsPlus, litRe "a", wsStar,
      litRe "readme"]))]

/-- Source regex (line 293):
`create\s+a\s*file\s*['\"]?([^'\"]+)['\"]?\s*in\s*['\"]?([^'\"]+)['\"]?\s*with\s*(?:the\s*content)?\s*:?\s*([\s\S]*?)(?=(?:commit\s*message\s*:|$))`. -/
def createFileRe : Re :=
  cat [litRe "create", wsPlus, litRe "a", wsStar, litRe "file", wsStar,
    quoteOpt, nonQuoteGrp 1, quoteOpt, wsStar, litRe "in", wsStar,
    quoteOpt, nonQuoteGrp 2, quoteOpt, wsStar, litRe "with", wsStar,
    optG (cat [litRe "the", wsStar, litRe "content"]), wsStar,
    optG (litRe ":"), wsStar, anyLazyGrp 3,
    Re.look (Re.alt (cat [litRe "commit", wsStar, litRe "message", wsStar,
      litRe ":"]) Re.eos)]

/-- Source regex (lines 294 and 338):
`commit\s*message\s*:\s*['\"]?([^'\"]+)['\"]?`. -/
def commitRe : Re :=
  cat [litRe "commit", wsStar, litRe "message", wsStar, litRe ":", wsStar,
    quoteOpt, nonQuoteGrp 1, quoteOpt]

/-- Source regex (line 311):
`delete\s+(?:the\s+)?repo(?:sitory)?\s*(?:named\s+)?['\"]?([^'\"]+)['\"]?`. -/
def deleteRepoRe : Re :=
  cat [litRe "delete", wsPlus, optG (cat [litRe "the", wsPlus]),
    litRe "repo", optG (litRe "sitory"), wsStar,
    optG (cat [litRe "named", wsPlus]), quoteOpt, nonQuoteGrp 1, quoteOpt]

/-- The source's trailing optional commit clause
`(?:(?:with|using)\s*commit\s*message\s*:\s*['\"]?([^'\"]+)['\"]?)?`
with capture index `i`. -/
def commitClauseOpt (i : Nat) : Re :=
  optG (cat [Re.alt (litRe "with") (litRe "using"), wsStar, litRe "commit",
    wsStar, litRe "message", wsStar, litRe ":", wsStar, quoteOpt,
    nonQuoteGrp i, quoteOpt])

/-- Source regex (line 322):
`delete\s+(?:the\s+)?file\s*['\"]?([^'\"]+)['\"]?\s*in\s*['\"]?([^'\"]+)['\"]?\s*?(?:(?:with|using)\s*commit\s*message\s*:\s*['\"]?([^'\"]+)['\"]?)?`. -/
def deleteFileRe : Re :=
  cat [litRe "delete", wsPlus, optG (cat [litRe "the", wsPlus]),
    litRe "file", wsStar, quoteOpt, nonQuoteGrp 1, quoteOpt, wsStar,
    litRe "in", wsStar, quoteOpt, nonQuoteGrp 2, quoteOpt, wsStarLazy,
    commitClauseOpt 3]

/-- Source regex (line 337):
`update\s+(?:the\s+)?file\s*['\"]?([^'\"]+)['\"]?\s*in\s*['\"]?([^'\"]+)['\"]?\s*with\s*(?:the\s*content)?\s*:?\s*([\s\S]*?)(?=(?:commit\s*message\s*:|$))`. -/
def updateFileRe : Re :=
  cat [litRe "update", wsPlus, optG (cat [litRe "the", wsPlus]),
    litRe "file", wsStar, quoteOpt, nonQuoteGrp 1, quoteOpt, wsStar,
    litRe "in", wsStar, quoteOpt, nonQuoteGrp 2, quoteOpt, wsStar,
    litRe "with", wsStar, optG (cat [litRe "the", wsStar, litRe "content"]),
    wsStar, optG (litRe ":"), wsStar, anyLazyGrp 3,
    Re.look (Re.alt (cat [litRe "commit", wsStar, litRe "message", wsStar,
      litRe ":"]) Re.eos)]

/-- Source regex (line 355):
`update\s+(?:the\s+)?file\s*['\"]?([^'\"]+)['\"]?\s*in\s*['\"]?([^'\"]+)['\"]?\s*with\s*content\s*from\s*['\"]?([^'\"]+)['\"]?\s*?(?:(?:with|using)\s*commit\s*message\s*:\s*['\"]?([^'\"]+)['\"]?)?`. -/
def updateLocalRe : Re :=
  cat [litRe "update", wsPlus, optG (cat [litRe "the", wsPlus]),
    litRe "file", wsStar, quoteOpt, nonQuoteGrp 1, quoteOpt, wsStar,
    litRe "in", wsStar, quoteOpt, nonQuoteGrp 2, quoteOpt, wsStar,
    litRe "with", wsStar, litRe "content", wsStar, litRe "from", wsStar,
    quoteOpt, nonQuoteGrp 3, quoteOpt, wsStarLazy, commitClauseOpt 4]

/-- One branch of the get-file alternation (line 372).  Every branch of the
source regex has the uniform shape
`VERB\s+(?:the\s+)?FORM\s*['\"]?(g)['\"]?\s*PREP\s*['\"]?(g+1)['\"]?`
where FORM is `file` or `content\s*of` and PREP is `in` or `from`. -/
def gfBranch (verb : String) (contentOf : Bool) (prepIn : Bool) (g : Nat) : Re :=
  cat [litRe verb, wsPlus, optG (cat [litRe "the", wsPlus]),
    (if contentOf then cat [litRe "content", wsStar, litRe "of"]
     else litRe "file"), wsStar,
    quoteOpt, nonQuoteGrp g, quoteOpt, wsStar,
    (if prepIn then litRe "in" else litRe "from"), wsStar,
    quoteOpt, nonQuoteGrp (g + 1), quoteOpt]

/-- The 42 (verb, form, preposition) triples of the get-file alternation,
in source order; `true` in the second component means the `content of`
form, `true` in the third means the preposition `in` (else `from`). -/
def gfTable : List (String × Bool × Bool) :=
  [("get", false, true), ("read", false, false), ("show", true, true),
   ("view", false, true), ("open", false, true), ("fetch", false, false),
   ("display", false, true), ("retrieve", false, false),
   ("access", false, true), ("load", false, false),
   ("extract", false, false), ("pull", false, false),
   ("grab", false, false), ("collect", false, false),
   ("obtain", false, false), ("check", false, true),
   ("inspect", false, true), ("examine", false, true),
   ("review", false, true), ("see", false, true), ("lookup", false, true),
   ("find", false, true), ("search", false, true),
   ("get", true, true), ("read", true, false), ("fetch", true, false),
   ("retrieve", true, false), ("access", true, true),
   ("load", true, false), ("extract", true, false), ("pull", true, false),
   ("grab", true, false), ("collect", true, false),
   ("obtain", true, false), ("check", true, true), ("inspect", true, true),
   ("examine", true, true), ("review", true, true), ("see", true, true),
   ("lookup", true, true), ("find", true, true), ("search", true, true)]

/-- Source regex (line 372): the get-file family, an ordered alternation of
the 42 branches with capture-group pairs (1,2), (3,4), ..., (83,84). -/
def getFileRe : Re :=
  match (gfTable.enum.map
      (fun p => gfBranch p.2.1 p.2.2.1 p.2.2.2 (2 * p.1 + 1))) with
  | [] => Re.eps
  | b :: bs => bs.foldl Re.alt b

/-- Source regex (line 388):
`(?:push|upload)\s*(?:the\s+)?project\s*(?:at|from)\s*['\"]?([^'\"]+)['\"]?\s*to\s*['\"]?([^'\"]+)['\"]?\s*?(?:on\s*(?:branch\s*)?['\"]?([^'\"]+)['\"]?)?\s*?(?:(?:with|using)\s*commit\s*message\s*:\s*['\"]?([^'\"]+)['\"]?)?`. -/
def pushProjectRe : Re :=
  cat [Re.alt (litRe "push") (litRe "upload"), wsStar,
    optG (cat [litRe "the", wsPlus]), litRe "project", wsStar,
    Re.alt (litRe "at") (litRe "from"), wsStar, quoteOpt, nonQuoteGrp 1,
    quoteOpt, wsStar, litRe "to", wsStar, quoteOpt, nonQuoteGrp 2, quoteOpt,
    wsStarLazy, optG (cat [litRe "on", wsStar,
      optG (cat [litRe "branch", wsStar]), quoteOpt, nonQuoteGrp 3,
      quoteOpt]), wsStarLazy, commitClauseOpt 4]

/-- A tool-call input value: the source dictionaries mix strings and
booleans (spec data model: `mapping(string→string|bool)`). -/
inductive Val where
  | s : String → Val
  | b : Bool → Val
deriving DecidableEq

/-- A structured tool call `{"name": str, "inputs": dict}` as built by
`parse_prompt_for_tool_calls`; the input list keeps the source's insertion
order. -/
structure ToolCall where
  name : String
  inputs : List (String × Val)
deriving DecidableEq

/-- Group access with the empty string for a non-participating group.  In
every place this is used the group is a required one that participates
whenever the regex matched. -/
def getCap (c : Caps) (i : Nat) : String := (capGet c i).getD ""

/-- Python truthiness of `match.group(i)`: `False` for `None` and for the
empty string. -/
def truthyCap (c : Caps) (i : Nat) : Bool :=
  match capGet c i with
  | none => false
  | some s => !s.isEmpty

/-- Python `group(i) or default`: the default is used when the group is
absent or captured the empty string. -/
def capOrDefault (c : Caps) (i : Nat) (d : String) : String :=
  match capGet c i with
  | none => d
  | some s => if s.isEmpty then d else s

/-- Python `str.strip()`: drop leading and trailing whitespace. -/
def stripStr (s : String) : String :=
  String.mk (((s.toList.dropWhile isWsChar).reverse.dropWhile isWsChar).reverse)

/-- Python `os.path.basename`: the part after the last slash. -/
def basenameStr (s : String) : String :=
  (s.splitOn "/").getLastD ""

/-- Repository-creation rule (source lines 278-290). -/
def ruleCreateRepo (cs : List Char) : List ToolCall :=
  match reSearch createRepoRe cs with
  | none => []
  | some c =>
    [⟨"create_repository",
      [("repo_name", Val.s (getCap c 1)),
       ("private", Val.b (truthyCap c 2)),
       ("initialize_readme", Val.b (truthyCap c 3))]⟩]

/-- File-creation rule (source lines 293-308); the commit-message regex is
searched over the whole prompt. -/
def ruleCreateFile (cs : List Char) : List ToolCall :=
  match reSearch createFileRe cs with
  | none => []
  | some c =>
    let fp := getCap c 1
    let cm := match reSearch commitRe cs with
      | some cc => getCap cc 1
      | none => "Add " ++ fp ++ " via MCP"
    [⟨"create_file",
      [("repo_name", Val.s (getCap c 2)),
       ("file_path", Val.s fp),
       ("content", Val.s (stripStr (getCap c 3))),
       ("commit_message", Val.s cm)]⟩]

/-- Repository-deletion rule (source lines 311-319). -/
def ruleDeleteRepo (cs : List Char) : List ToolCall :=
  match reSearch deleteRepoRe cs with
  | none => []
  | some c =>
    [⟨"delete_repository", [("repo_name", Val.s (getCap c 1))]⟩]

/-- File-deletion rule (source lines 322-334). -/
def ruleDeleteFile (cs : List Char) : List ToolCall :=
  match reSearch deleteFileRe cs with
  | none => []
  | some c =>
    let fp := getCap c 1
    [⟨"delete_file",
      [("repo_name", Val.s (getCap c 2)),
       ("file_path", Val.s fp),
       ("commit_message",
        Val.s (capOrDefault c 3 ("Delete " ++ fp ++ " via MCP")))]⟩]

/-- File-update rule (source lines 337-352). -/
def ruleUpdateFile (cs : List Char) : List ToolCall :=
  match reSearch updateFileRe cs with
  | none => []
  | some c =>
    let fp := getCap c 1
    let cm := match reSearch commitRe cs with
      | some cc => getCap cc 1
      | none => "Update " ++ fp ++ " via MCP"
    [⟨"update_file",
      [("repo_name", Val.s (getCap c 2)),
       ("file_path", Val.s fp),
       ("content", Val.s (stripStr (getCap c 3))),
       ("commit_message", Val.s cm)]⟩]

/-- Update-from-local rule (source lines 355-369). -/
def ruleUpdateLocal (cs : List Char) : List ToolCall :=
  match reSearch updateLocalRe cs with
  | none => []
  | some c =>
    let fp := getCap c 1
    [⟨"update_file_from_local",
      [("repo_name", Val.s (getCap c 2)),
       ("file_path", Val.s fp),
       ("local_file_path", Val.s (getCap c 3)),
       ("commit_message",
        Val.s (capOrDefault c 4
          ("Update " ++ fp ++ " from local file via MCP")))]⟩]

/-- The get-file group iteration (source lines 374-384): for each pair of
capture groups `(i+1, i+2)` with `i = 0, 2, ..., 82`, a truthy first group
of the pair yields one `get_file` call. -/
def getFileCallsOf (c : Caps) : List ToolCall :=
  (List.range 42).filterMap (fun j =>
    match capGet c (2 * j + 1) with
    | none => none
    | some fp =>
      if fp.isEmpty then none
      else some ⟨"get_file",
        [("repo_name", Val.s (getCap c (2 * j + 2))),
         ("file_path", Val.s fp)]⟩)

/-- Push-project rule (source lines 387-404). -/
def rulePushProject (cs : List Char) : List ToolCall :=
  match reSearch pushProjectRe cs with
  | none => []
  | some c =>
    let pp := getCap c 1
    [⟨"push_project",
      [("repo_name", Val.s (getCap c 2)),
       ("project_path", Val.s pp),
       ("branch", Val.s (capOrDefault c 3 "main")),
       ("commit_message",
        Val.s (capOrDefault c 4
          ("Push project from " ++ basenameStr pp ++ " via MCP")))]⟩]

/-- Body of `parse_prompt_for_tool_calls` inside its `try` (source lines
274-406): the prompt is truncated to 100000 characters, each rule appends
its calls independently, and — the one fallible step — the get-file rule
calls `.groups()` on the result of `re.search` without a `None` check
(line 374), so a prompt the get-file alternation does not match raises
`AttributeError`, modelled as the error case. -/
def parsePromptBody (prompt : String) : Except String (List ToolCall) :=
  let cs := prompt.toList.take 100000
  let t1 := ruleCreateRepo cs
  let t2 := ruleCreateFile cs
  let t3 := ruleDeleteRepo cs
  let t4 := ruleDeleteFile cs
  let t5 := ruleUpdateFile cs
  let t6 := ruleUpdateLocal cs
  match reSearch getFileRe cs with
  | none =>
    Except.error "AttributeError: NoneType object has no attribute groups"
  | some c =>
    let t7 := getFileCallsOf c
    let t8 := rulePushProject cs
    Except.ok (t1 ++ t2 ++ t3 ++ t4 ++ t5 ++ t6 ++ t7 ++ t8)

/-- `parse_prompt_for_tool_calls` (source lines 264-409): the whole body
runs under `try`, and any exception is caught and turned into the empty
list (lines 407-409). -/
def parsePromptForToolCalls (prompt : String) : List ToolCall :=
  match parsePromptBody prompt with
  | Except.ok l => l
  | Except.error _ => []

/-- All eight pattern rules fail to match the (truncated) prompt. -/
def noRuleMatches (prompt : String) : Bool :=
  let cs := prompt.toList.take 100000
  (reSearch createRepoRe cs).isNone && (reSearch createFileRe cs).isNone &&
  (reSearch deleteRepoRe cs).isNone && (reSearch deleteFileRe cs).isNone &&
  (reSearch updateFileRe cs).isNone && (reSearch updateLocalRe cs).isNone &&
  (reSearch getFileRe cs).isNone && (reSearch pushProjectRe cs).isNone

/-! ### The external collaborator (GitHub API) and the push_project engine -/

/-- Response of one external-API call: success, or a `GithubException`
carrying its HTTP status and message. -/
inductive GhResp where
  | ok : GhResp
  | err : Nat → String → GhResp
deriving DecidableEq

/-- Models `str(GithubException)`: the status followed by the message. -/
def strGh (status : Nat) (msg : String) : String := toString status ++ " " ++ msg

/-- The external collaborator, one deterministic response per operation
(sufficient for the analysed claims; within one push the calls run
sequentially). -/
structure GhApi where
  getRepo : GhResp
  createRepo : GhResp
  getContents : String → GhResp
  updateFile : String → GhResp
  createFile : String → GhResp

/-- Observable events of a run: each external call with its response, and
the backoff sleeps the original design performs. -/
inductive Ev where
  | repoGet : GhResp → Ev
  | repoCreate : GhResp → Ev
  | getC : String → GhResp → Ev
  | upd : String → GhResp → Ev
  | cre : String → GhResp → Ev
  | slept : Nat → Ev
deriving DecidableEq

/-- A local file as seen by the directory walk: its path components
relative to the project root, its raw bytes, whether opening/reading it
succeeds, and whether the walked path is a regular file (`is_file()`). -/
structure LocalFile where
  relParts : List String
  bytes : List Nat
  readable : Bool
  isFile : Bool
deriving DecidableEq

/-- The posix-style relative path string
(`file_path.relative_to(project_dir)` joined with slashes, as produced by
`as_posix()` in the original and by `str(...).replace('\\', '/')` in the
fixed variant). -/
def relPathStr (f : LocalFile) : String := String.intercalate "/" f.relParts

/-- Fuel-indexed strict UTF-8 validity of a byte sequence (the check
performed by Python's `open(..., 'r', encoding='utf-8')` followed by
`read()`): ASCII, the two-to-four-byte sequences with their continuation
ranges, and the overlong/surrogate exclusions (0xE0 requires 0xA0-0xBF,
0xED requires 0x80-0x9F, 0xF0 requires 0x90-0xBF, 0xF4 requires
0x80-0x8F).  Each step consumes at least one byte, so fuel equal to the
length suffices. -/
def validUtf8Fuel : Nat → List Nat → Bool
  | _, [] => true
  | 0, _ :: _ => false
  | Nat.succ fl, b :: rest =>
    if b < 128 then validUtf8Fuel fl rest
    else if 194 ≤ b ∧ b ≤ 223 then
      match rest with
      | c1 :: r => decide (128 ≤ c1 ∧ c1 ≤ 191) && validUtf8Fuel fl r
      | [] => false
    else if b = 224 then
      match rest with
      | c1 :: c2 :: r =>
        decide (160 ≤ c1 ∧ c1 ≤ 191) && decide (128 ≤ c2 ∧ c2 ≤ 191) &&
          validUtf8Fuel fl r
      | _ => false
    else if (225 ≤ b ∧ b ≤ 236) ∨ b = 238 ∨ b = 239 then
      match rest with
      | c1 :: c2 :: r =>
        decide (128 ≤ c1 ∧ c1 ≤ 191) && decide (128 ≤ c2 ∧ c2 ≤ 191) &&
          validUtf8Fuel fl r
      | _ => false
    else if b = 237 then
      match rest with
      | c1 :: c2 :: r =>
        decide (128 ≤ c1 ∧ c1 ≤ 159) && decide (128 ≤ c2 ∧ c2 ≤ 191) &&
          validUtf8Fuel fl r
      | _ => false
    else if b = 240 then
      match rest with
      | c1 :: c2 :: c3 :: r =>
        decide (144 ≤ c1 ∧ c1 ≤ 191) && decide (128 ≤ c2 ∧ c2 ≤ 191) &&
          decide (128 ≤ c3 ∧ c3 ≤ 191) && validUtf8Fuel fl r
      | _ => false
    else if 241 ≤ b ∧ b ≤ 243 then
      match rest with
      | c1 :: c2 :: c3 :: r =>
        decide (128 ≤ c1 ∧ c1 ≤ 191) && decide (128 ≤ c2 ∧ c2 ≤ 191) &&
          decide (128 ≤ c3 ∧ c3 ≤ 191) && validUtf8Fuel fl r
      | _ => false
    else if b = 244 then
      match rest with
      | c1 :: c2 :: c3 :: r =>
        decide (128 ≤ c1 ∧ c1 ≤ 143) && decide (128 ≤ c2 ∧ c2 ≤ 191) &&
          decide (128 ≤ c3 ∧ c3 ≤ 191) && validUtf8Fuel fl r
      | _ => false
    else false

/-- Strict UTF-8 validity of a byte sequence. -/
def validUtf8 (l : List Nat) : Bool := validUtf8Fuel l.length l

/-- The text-mode read of the fixed variant (line 104,
`open(file_path, 'r', encoding='utf-8')` and `read()`): `none` when the
read succeeds, otherwise the exception text (`str(e)` is abstracted to the
exception class name; no claim inspects the exact wording).  The decoded
text itself is not observed by any analysed claim, so the model records
only success or failure of the read. -/
def readTextUtf8 (f : LocalFile) : Option String :=
  if f.readable = false then some "OSError"
  else if validUtf8 f.bytes = false then some "UnicodeDecodeError"
  else none

/-- One upload step of the fixed variant (lines 107-126): fetch the remote
file, update it on success; on a 404 from either call, create it instead;
any other error — including the create call's own errors — propagates to
the per-file handler.  Returns the propagated error text (or `none` for
success) together with the external calls performed. -/
def sync1Fixed (api : GhApi) (rel : String) : Option String × List Ev :=
  match api.getContents rel with
  | GhResp.ok =>
    match api.updateFile rel with
    | GhResp.ok =>
      (none, [Ev.getC rel GhResp.ok, Ev.upd rel GhResp.ok])
    | GhResp.err s m =>
      if s = 404 then
        match api.createFile rel with
        | GhResp.ok =>
          (none, [Ev.getC rel GhResp.ok, Ev.upd rel (GhResp.err s m),
            Ev.cre rel GhResp.ok])
        | GhResp.err s2 m2 =>
          (some (strGh s2 m2), [Ev.getC rel GhResp.ok,
            Ev.upd rel (GhResp.err s m), Ev.cre rel (GhResp.err s2 m2)])
      else
        (some (strGh s m), [Ev.getC rel GhResp.ok, Ev.upd rel (GhResp.err s m)])
  | GhResp.err s m =>
    if s = 404 then
      match api.createFile rel with
      | GhResp.ok =>
        (none, [Ev.getC rel (GhResp.err s m), Ev.cre rel GhResp.ok])
      | GhResp.err s2 m2 =>
        (some (strGh s2 m2), [Ev.getC rel (GhResp.err s m),
          Ev.cre rel (GhResp.err s2 m2)])
    else (some (strGh s m), [Ev.getC rel (GhResp.err s m)])

/-- Processing of one walked entry in the fixed variant (lines 99-132):
read the file in text mode, then run the upload step; a read failure makes
no external call.  `none` in the first component means the entry
succeeded. -/
def processEntry (api : GhApi) (f : LocalFile) : Option String × List Ev :=
  match readTextUtf8 f with
  | some m => (some m, [])
  | none => sync1Fixed api (relPathStr f)

/-- The per-file outcome bookkeeping of the fixed variant. -/
structure FixedOutcome where
  successFiles : List String
  failedFiles : List String
  trace : List Ev
deriving DecidableEq

/-- The per-file loop of the fixed variant (lines 95-132): each entry is
processed in order; a success appends the relative path to
`success_files`, any per-entry exception appends `"rel: msg"` to
`failed_files` and the loop continues with the next entry. -/
def pushFilesFixed (api : GhApi) : List LocalFile → FixedOutcome
  | [] => ⟨[], [], []⟩
  | f :: rest =>
    match processEntry api f with
    | (none, ev) =>
      ⟨relPathStr f :: (pushFilesFixed api rest).successFiles,
        (pushFilesFixed api rest).failedFiles,
        ev ++ (pushFilesFixed api rest).trace⟩
    | (some m, ev) =>
      ⟨(pushFilesFixed api rest).successFiles,
        (relPathStr f ++ ": " ++ m) :: (pushFilesFixed api rest).failedFiles,
        ev ++ (pushFilesFixed api rest).trace⟩

/-- The ignore set of the fixed variant (line 93). -/
def ignoreFixed : List String :=
  [".git", "__pycache__", ".env", "node_modules", ".pytest_cache"]

/-- The ignore set of the original variant (line 610). -/
def ignoreOrig : List String :=
  [".git", "__pycache__", ".venv", ".env", "node_modules"]

/-- Whether some ignored name occurs among the path components
(`any(p in file_path.parts for p in ignore_patterns)`); `rootParts` are
the components of the project directory itself, which `file_path.parts`
also contains. -/
def hasIgnored (ignore : List String) (rootParts : List String)
    (f : LocalFile) : Bool :=
  ignore.any (fun p => (rootParts ++ f.relParts).contains p)

/-- The eligibility filter of the fixed variant's walk (lines 95-97): keep
regular files with no ignored path component. -/
def eligibleFixed (rootParts : List String) (fs : List LocalFile) :
    List LocalFile :=
  fs.filter (fun f => f.isFile && !hasIgnored ignoreFixed rootParts f)

/-- Result of the `/mcp/invoke` endpoint: the success payload, or an
`HTTPException` with status code and detail text. -/
inductive PushResult where
  | ok : FixedOutcome → PushResult
  | httpError : Nat → String → PushResult
deriving DecidableEq

/-- `push_project` of the fixed variant (lines 64-144) from the
repository lookup on: get the repository, create it on a 404, fail the
whole request with a 500 on any other repository error, then walk and
upload.  The endpoint always returns `{"status": "success", ...}` once the
loop is reached, whatever the per-file outcomes. -/
def pushProjectFixed (api : GhApi) (rootParts : List String)
    (fs : List LocalFile) : PushResult :=
  match api.getRepo with
  | GhResp.ok => PushResult.ok (pushFilesFixed api (eligibleFixed rootParts fs))
  | GhResp.err s m =>
    if s = 404 then
      match api.createRepo with
      | GhResp.ok =>
        PushResult.ok (pushFilesFixed api (eligibleFixed rootParts fs))
      | GhResp.err s2 m2 =>
        PushResult.httpError 500 ("Error pushing project: " ++ strGh s2 m2)
    else PushResult.httpError 500 ("Error pushing project: " ++ strGh s m)

/-- GitHub's hard per-file limit used by the original variant (line 420). -/
def MAX_CONTENT_SIZE : Nat := 100000000

/-- The walk bookkeeping of the original variant. -/
structure OrigWalk where
  filesToUpload : List (String × List Nat)
  skippedFiles : List String
deriving DecidableEq

/-- The size-exceeded skip record of the original walk (line 620). -/
def sizeSkipMsg (f : LocalFile) : String :=
  relPathStr f ++ ": Size (" ++ toString f.bytes.length ++
    " bytes) exceeds 100 MB limit"

/-- The directory walk of the original variant (lines 609-625): skip
non-files and paths with an ignored component; read each remaining file in
binary mode (an unreadable file is recorded as skipped), record files over
`MAX_CONTENT_SIZE` as skipped, and queue the rest for upload.  The
base64-encoded content is modelled by the raw bytes (the encoding is
injective and never inspected). -/
def walkOrig (rootParts : List String) : List LocalFile → OrigWalk
  | [] => ⟨[], []⟩
  | f :: rest =>
    if f.isFile && !hasIgnored ignoreOrig rootParts f then
      if f.readable = false then
        ⟨(walkOrig rootParts rest).filesToUpload,
          (relPathStr f ++ ": Error reading file: OSError") ::
            (walkOrig rootParts rest).skippedFiles⟩
      else if decide (f.bytes.length > MAX_CONTENT_SIZE) then
        ⟨(walkOrig rootParts rest).filesToUpload,
          sizeSkipMsg f :: (walkOrig rootParts rest).skippedFiles⟩
      else
        ⟨(relPathStr f, f.bytes) :: (walkOrig rootParts rest).filesToUpload,
          (walkOrig rootParts rest).skippedFiles⟩
    else walkOrig rootParts rest

/-- Result of the original variant's push up to the empty-upload guard. -/
inductive OrigPreResult where
  | ok : OrigWalk → OrigPreResult
  | httpError : Nat → String → OrigPreResult
deriving DecidableEq

/-- The walk and the empty-upload guard of the original variant (lines
609-628): the guard (lines 627-628) raises a 400 `HTTPException` whose
detail reports the skipped files when nothing is eligible for upload.
Python's rendering of the skipped list is abstracted by joining the
records with a comma. -/
def origGuard (rootParts : List String) (fs : List LocalFile) : OrigPreResult :=
  let w := walkOrig rootParts fs
  if w.filesToUpload.isEmpty then
    OrigPreResult.httpError 400
      ("No files to upload. Skipped: " ++
        String.intercalate ", " w.skippedFiles)
  else OrigPreResult.ok w

/-- `push_project` of the original variant (lines 596-628) from the
repository lookup (lines 598-607) through the walk and the empty-upload
guard.  The upload loop that follows in the source (lines 632-660) is
syntactically invalid Python — line 636 puts two statements on one line —
so the module cannot be imported and the loop has no defined behaviour;
only the part up to the guard is modelled. -/
def pushProjectOrigPre (api : GhApi) (rootParts : List String)
    (fs : List LocalFile) : OrigPreResult :=
  match api.getRepo with
  | GhResp.ok => origGuard rootParts fs
  | GhResp.err s m =>
    if s = 404 then
      match api.createRepo with
      | GhResp.ok => origGuard rootParts fs
      | GhResp.err s2 m2 =>
        OrigPreResult.httpError 500 ("GitHub API error: " ++ strGh s2 m2)
    else OrigPreResult.httpError 500 ("GitHub API error: " ++ strGh s m)

/-! ### The create_file branch of the original invoke_tool -/

/-- The inputs of a `create_file` invocation; `none` models an absent
dictionary key. -/
structure CreateFileInputs where
  repoName : Option String
  filePath : Option String
  content : Option String
  commitMessage : Option String
deriving DecidableEq

/-- Python truthiness of an optional string: `None` and the empty string
are falsy. -/
def truthyOptStr : Option String → Bool
  | none => false
  | some s => !s.isEmpty

/-- Result of one `create_file` invocation. -/
inductive InvokeResult where
  | ok : String → InvokeResult
  | httpError : Nat → String → InvokeResult
deriving DecidableEq

/-- The `create_file` branch of the original `invoke_tool` (lines
436-454): required inputs are validated by `not all([...])` — Python
truthiness, so an empty string fails exactly like an absent key — before
any size check or external call; then the UTF-8 byte length is checked
against the 100 MB ceiling, and only then the repository is fetched and
the file created.  The second component lists the external calls made. -/
def invokeCreateFile (api : GhApi) (inp : CreateFileInputs) :
    InvokeResult × List Ev :=
  if !(truthyOptStr inp.repoName && truthyOptStr inp.filePath &&
      truthyOptStr inp.content) then
    (InvokeResult.httpError 400 "repo_name, file_path, and content are required",
      [])
  else
    let content := inp.content.getD ""
    let fp := inp.filePath.getD ""
    let rn := inp.repoName.getD ""
    if decide (content.utf8ByteSize > MAX_CONTENT_SIZE) then
      (InvokeResult.httpError 400
        ("Content size (" ++ toString content.utf8ByteSize ++
          " bytes) exceeds 100 MB limit"), [])
    else
      match api.getRepo with
      | GhResp.ok =>
        match api.createFile fp with
        | GhResp.ok =>
          (InvokeResult.ok ("File " ++ fp ++ " created in " ++ rn),
            [Ev.repoGet GhResp.ok, Ev.cre fp GhResp.ok])
        | GhResp.err s m =>
          (InvokeResult.httpError 500 ("GitHub API error: " ++ strGh s m),
            [Ev.repoGet GhResp.ok, Ev.cre fp (GhResp.err s m)])
      | GhResp.err s m =>
        (InvokeResult.httpError 500 ("GitHub API error: " ++ strGh s m),
          [Ev.repoGet (GhResp.err s m)])

/-! ### Helper lemmas -/

/-- The success list of the fixed loop is exactly the relative paths of
the entries whose own processing succeeded, in order. -/
theorem pushFilesFixed_successFiles (api : GhApi) (fs : List LocalFile) :
    (pushFilesFixed api fs).successFiles =
      (fs.filter (fun f => (processEntry api f).1.isNone)).map relPathStr := by
  induction fs with
  | nil => rfl
  | cons f rest ih =>
    rcases hpe : processEntry api f with ⟨_ | m, ev⟩ <;>
      simp [pushFilesFixed, hpe, ih]

/-- The failure list of the fixed loop is exactly the entries whose own
processing failed, each rendered with its error text, in order. -/
theorem pushFilesFixed_failedFiles (api : GhApi) (fs : List LocalFile) :
    (pushFilesFixed api fs).failedFiles =
      (fs.filter (fun f => (processEntry api f).1.isSome)).map
        (fun f => relPathStr f ++ ": " ++ ((processEntry api f).1.getD "")) := by
  induction fs with
  | nil => rfl
  | cons f rest ih =>
    rcases hpe : processEntry api f with ⟨_ | m, ev⟩ <;>
      simp [pushFilesFixed, hpe, ih]

/-- Every processed entry lands in exactly one of the two lists. -/
theorem pushFilesFixed_length (api : GhApi) (fs : List LocalFile) :
    (pushFilesFixed api fs).successFiles.length +
      (pushFilesFixed api fs).failedFiles.length = fs.length := by
  induction fs with
  | nil => rfl
  | cons f rest ih =>
    rcases hpe : processEntry api f with ⟨_ | m, ev⟩ <;>
      simp [pushFilesFixed, hpe] <;> omega

/-- An all-ASCII byte run is valid UTF-8, whatever its length. -/
theorem validUtf8Fuel_replicate_ascii (b : Nat) (hb : b < 128) :
    ∀ n fl, n ≤ fl → validUtf8Fuel fl (List.replicate n b) = true := by
  intro n
  induction n with
  | zero => intro fl _; cases fl <;> rfl
  | succ k ih =>
    intro fl hfl
    cases fl with
    | zero => omega
    | succ fl2 =>
      rw [List.replicate_succ]
      show validUtf8Fuel (fl2 + 1) (b :: List.replicate k b) = true
      simp only [validUtf8Fuel]
      rw [if_pos hb]
      exact ih fl2 (by omega)

/-- An all-ASCII byte sequence is valid UTF-8. -/
theorem validUtf8_replicate_ascii (b : Nat) (hb : b < 128) (n : Nat) :
    validUtf8 (List.replicate n b) = true := by
  unfold validUtf8
  rw [List.length_replicate]
  exact validUtf8Fuel_replicate_ascii b hb n n le_rfl

/-- Every entry queued for upload by the original walk comes from an
eligible, readable file within the size ceiling. -/
theorem walkOrig_upload_mem (root : List String) (fs : List LocalFile)
    (p : String) (c : List Nat)
    (h : (p, c) ∈ (walkOrig root fs).filesToUpload) :
    ∃ f, f ∈ fs ∧ p = relPathStr f ∧ c = f.bytes ∧ f.isFile = true ∧
      hasIgnored ignoreOrig root f = false ∧ f.readable = true ∧
      f.bytes.length ≤ MAX_CONTENT_SIZE := by
  induction fs with
  | nil => simp [walkOrig] at h
  | cons f rest ih =>
    by_cases hf : (f.isFile && !hasIgnored ignoreOrig root f) = true
    · by_cases hr : f.readable = false
      · rw [walkOrig] at h
        simp only [hf, if_true, hr] at h
        obtain ⟨g, hg, rest2⟩ := ih h
        exact ⟨g, List.mem_cons_of_mem f hg, rest2⟩
      · by_cases hsz : (decide (f.bytes.length > MAX_CONTENT_SIZE)) = true
        · rw [walkOrig] at h
          simp only [hf, if_true, hr, if_false, hsz] at h
          obtain ⟨g, hg, rest2⟩ := ih h
          exact ⟨g, List.mem_cons_of_mem f hg, rest2⟩
        · rw [walkOrig] at h
          simp only [hf, if_true, hr, if_false, hsz] at h
          rcases List.mem_cons.mp h with heq | hmem
          · obtain ⟨hp, hc⟩ := Prod.mk.injEq .. ▸ heq
            refine ⟨f, List.mem_cons_self f rest, hp, hc, ?_, ?_, ?_, ?_⟩
            · exact (Bool.and_eq_true ..).mp hf |>.1
            · have := (Bool.and_eq_true ..).mp hf |>.2
              simpa using this
            · simpa using hr
            · simp at hsz; omega
          · obtain ⟨g, hg, rest2⟩ := ih hmem
            exact ⟨g, List.mem_cons_of_mem f hg, rest2⟩
    · rw [walkOrig] at h
      simp only [hf, if_false] at h
      obtain ⟨g, hg, rest2⟩ := ih h
      exact ⟨g, List.mem_cons_of_mem f hg, rest2⟩

/-- An eligible, readable, oversized file is recorded as skipped with the
size-exceeded message by the original walk. -/
theorem walkOrig_oversized_skipped (root : List String) (fs : List LocalFile)
    (f : LocalFile) (hmem : f ∈ fs) (hfile : f.isFile = true)
    (hig : hasIgnored ignoreOrig root f = false) (hread : f.readable = true)
    (hsize : MAX_CONTENT_SIZE < f.bytes.length) :
    sizeSkipMsg f ∈ (walkOrig root fs).skippedFiles := by
  induction fs with
  | nil => cases hmem
  | cons g rest ih =>
    rcases List.mem_cons.mp hmem with rfl | hmem2
    · rw [walkOrig]
      have h1 : (f.isFile && !hasIgnored ignoreOrig root f) = true := by
        rw [hfile, hig]; rfl
      rw [if_pos h1]
      have h2 : ¬ f.readable = false := by rw [hread]; simp
      rw [if_neg h2]
      have h3 : decide (f.bytes.length > MAX_CONTENT_SIZE) = true := by
        simpa using hsize
      rw [if_pos h3]
      exact List.mem_cons_self _ _
    · have htail := ih hmem2
      rw [walkOrig]
      by_cases hg : (g.isFile && !hasIgnored ignoreOrig root g) = true
      · rw [if_pos hg]
        by_cases hgr : g.readable = false
        · rw [if_pos hgr]; exact List.mem_cons_of_mem _ htail
        · rw [if_neg hgr]
          by_cases hgs : decide (g.bytes.length > MAX_CONTENT_SIZE) = true
          · rw [if_pos hgs]; exact List.mem_cons_of_mem _ htail
          · rw [if_neg hgs]; exact htail
      · rw [if_neg hg]; exact htail

/-! ### Claim theorems -/

/-- The tool call C1 and C4 expect for file `a.txt` in repository `o/r`. -/
def getFileATxtOR : ToolCall :=
  ⟨"get_file", [("repo_name", Val.s "o/r"), ("file_path", Val.s "a.txt")]⟩

/-- C1: the claim says `parse_prompt_for_tool_calls` returns exactly one
`create_repository` call for the prompt `create a repository with the name
'demo' private with a README`.  The repository-creation rule alone does
match the prompt and builds exactly that call (first conjunct), but the
get-file rule then calls `.groups()` on the `None` result of its
`re.search` (line 374), the raised `AttributeError` reaches the function's
blanket handler, and the parser returns the empty list (second conjunct):
the independent rule's match is discarded. -/
theorem c1_create_rule_matches_but_parser_returns_empty :
    ruleCreateRepo
        ("create a repository with the name 'demo' private with a README".toList) =
      [⟨"create_repository",
        [("repo_name", Val.s "demo"), ("private", Val.b true),
         ("initialize_readme", Val.b true)]⟩] ∧
    parsePromptForToolCalls
        "create a repository with the name 'demo' private with a README" = [] := by
  constructor
  · decide
  · decide

/-- C8: the extractor never lets an internal error escape, and a prompt
matched by none of the eight pattern rules yields the empty list: with no
get-file match the body raises (modelled by the error case of
`parsePromptBody`), the blanket handler catches it, and the result is
`[]`. -/
theorem c8_no_pattern_yields_empty (prompt : String)
    (h : noRuleMatches prompt = true) :
    parsePromptForToolCalls prompt = [] := by
  unfold noRuleMatches at h
  simp only [Bool.and_eq_true, Option.isNone_iff_eq_none] at h
  simp only [parsePromptForToolCalls, parsePromptBody, h.1.2]

/-- Witness for C8 at the concrete prompt `hello`. -/
theorem c8_witness :
    noRuleMatches "hello" = true ∧ parsePromptForToolCalls "hello" = [] :=
  ⟨by decide, c8_no_pattern_yields_empty "hello" (by decide)⟩

/-- C4 counterexample: the claim says every verb of the get-file synonym
family works in the frame `<verb> the file 'a.txt' in 'o/r'`, but for the
verb `read` the compiled alternation only accepts the preposition `from`,
no other branch matches, the whole get-file search returns `None`, and the
parser returns the empty list — not the claimed `get_file` call. -/
theorem c4_counterexample_read_with_in_preposition :
    parsePromptForToolCalls "read the file 'a.txt' in 'o/r'" = [] ∧
    parsePromptForToolCalls "read the file 'a.txt' in 'o/r'" ≠
      [getFileATxtOR] := by
  constructor
  · decide
  · decide

/-- C4 amended: the preposition recognized after `the file '<path>'`
depends on the verb.  The thirteen verbs get, view, open, display, access,
check, inspect, examine, review, see, lookup, find and search take `in`;
the nine verbs read, fetch, retrieve, load, extract, pull, grab, collect
and obtain take `from`; and `show` is recognized only in the frame
`show the content of '<path>' in '<repo>'`.  In each recognized frame the
parser yields exactly one `get_file` call with the captured
file path and repository. -/
theorem c4_amended_verb_preposition_behaviour :
    parsePromptForToolCalls "get the file 'a.txt' in 'o/r'" = [getFileATxtOR] ∧
    parsePromptForToolCalls "view the file 'a.txt' in 'o/r'" = [getFileATxtOR] ∧
    parsePromptForToolCalls "open the file 'a.txt' in 'o/r'" = [getFileATxtOR] ∧
    parsePromptForToolCalls "display the file 'a.txt' in 'o/r'" = [getFileATxtOR] ∧
    parsePromptForToolCalls "access the file 'a.txt' in 'o/r'" = [getFileATxtOR] ∧
    parsePromptForToolCalls "check the file 'a.txt' in 'o/r'" = [getFileATxtOR] ∧
    parsePromptForToolCalls "inspect the file 'a.txt' in 'o/r'" = [getFileATxtOR] ∧
    parsePromptForToolCalls "examine the file 'a.txt' in 'o/r'" = [getFileATxtOR] ∧
    parsePromptForToolCalls "review the file 'a.txt' in 'o/r'" = [getFileATxtOR] ∧
    parsePromptForToolCalls "see the file 'a.txt' in 'o/r'" = [getFileATxtOR] ∧
    parsePromptForToolCalls "lookup the file 'a.txt' in 'o/r'" = [getFileATxtOR] ∧
    parsePromptForToolCalls "find the file 'a.txt' in 'o/r'" = [getFileATxtOR] ∧
    parsePromptForToolCalls "search the file 'a.txt' in 'o/r'" = [getFileATxtOR] ∧
    parsePromptForToolCalls "read the file 'a.txt' from 'o/r'" = [getFileATxtOR] ∧
    parsePromptForToolCalls "fetch the file 'a.txt' from 'o/r'" = [getFileATxtOR] ∧
    parsePromptForToolCalls "retrieve the file 'a.txt' from 'o/r'" = [getFileATxtOR] ∧
    parsePromptForToolCalls "load the file 'a.txt' from 'o/r'" = [getFileATxtOR] ∧
    parsePromptForToolCalls "extract the file 'a.txt' from 'o/r'" = [getFileATxtOR] ∧
    parsePromptForToolCalls "pull the file 'a.txt' from 'o/r'" = [getFileATxtOR] ∧
    parsePromptForToolCalls "grab the file 'a.txt' from 'o/r'" = [getFileATxtOR] ∧
    parsePromptForToolCalls "collect the file 'a.txt' from 'o/r'" = [getFileATxtOR] ∧
    parsePromptForToolCalls "obtain the file 'a.txt' from 'o/r'" = [getFileATxtOR] ∧
    parsePromptForToolCalls "show the content of 'a.txt' in 'o/r'" = [getFileATxtOR] ∧
    parsePromptForToolCalls "show the file 'a.txt' in 'o/r'" = [] := by
  decide

/-- Fixture: a collaborator for which every call succeeds. -/
def apiAllOk : GhApi :=
  ⟨GhResp.ok, GhResp.ok, fun _ => GhResp.ok, fun _ => GhResp.ok,
    fun _ => GhResp.ok⟩

/-- Fixture: a collaborator that rate-limits every content lookup. -/
def api429 : GhApi :=
  ⟨GhResp.ok, GhResp.ok, fun _ => GhResp.err 429 "rate limit exceeded",
    fun _ => GhResp.ok, fun _ => GhResp.ok⟩

/-- Fixture: a collaborator whose content lookups fail with a 500. -/
def api500 : GhApi :=
  ⟨GhResp.ok, GhResp.ok, fun _ => GhResp.err 500 "server error",
    fun _ => GhResp.ok, fun _ => GhResp.ok⟩

/-- Fixture: an ordinary small readable ASCII file. -/
def fileATxt : LocalFile := ⟨["a.txt"], [104, 105], true, true⟩

/-- Fixture: a file whose read raises. -/
def fileUnreadable : LocalFile := ⟨["locked.txt"], [97], false, true⟩

/-- Fixture: a file under the `.git` directory. -/
def fileGitConfig : LocalFile := ⟨[".git", "config"], [97], true, true⟩

/-- Fixture: a file whose single byte 0xFF is not valid UTF-8. -/
def fileBad : LocalFile := ⟨["bad.bin"], [255], true, true⟩

/-- Fixture: a valid-UTF-8 file of 100000001 bytes, one byte over the
100 MB ceiling of the original variant. -/
def fileBig : LocalFile := ⟨["big.bin"], List.replicate 100000001 65, true, true⟩

/-- The byte length of the oversized fixture. -/
theorem fileBig_len : fileBig.bytes.length = 100000001 := by
  show (List.replicate 100000001 65).length = 100000001
  exact List.length_replicate _ _

/-- C2: the claim describes a 10-second backoff and up to 3 retries per
rate-limited entry, recording a failure after exhaustion.  The retry loop
exists only in github_mcpserver.py, whose push loop is syntactically
invalid (line 636 fuses two statements), so the module cannot even be
imported; the runnable fixed variant performs no backoff and no retry: a
429 on the content lookup makes exactly one external call, sleeps never,
and records the entry as failed immediately. -/
theorem c2_rate_limited_recorded_failed_without_retry :
    pushProjectFixed api429 [] [fileATxt] =
      PushResult.ok ⟨[], ["a.txt: " ++ strGh 429 "rate limit exceeded"],
        [Ev.getC "a.txt" (GhResp.err 429 "rate limit exceeded")]⟩ := by
  decide

/-- C3: within one push of the fixed variant, the success list is exactly
the (in-order) relative paths of eligible entries whose own processing
succeeded, the failure list is exactly the eligible entries whose own
processing failed (with their error text), and the two lengths sum to the
number of attempted entries — so the outcome lists partition the attempted
entries, and one entry's failure never removes a later entry from the
outcome. -/
theorem c3_outcome_partitions_entries (api : GhApi) (rootParts : List String)
    (fs : List LocalFile) :
    (pushFilesFixed api (eligibleFixed rootParts fs)).successFiles =
      ((eligibleFixed rootParts fs).filter
        (fun f => (processEntry api f).1.isNone)).map relPathStr ∧
    (pushFilesFixed api (eligibleFixed rootParts fs)).failedFiles =
      ((eligibleFixed rootParts fs).filter
        (fun f => (processEntry api f).1.isSome)).map
        (fun f => relPathStr f ++ ": " ++ ((processEntry api f).1.getD "")) ∧
    (pushFilesFixed api (eligibleFixed rootParts fs)).successFiles.length +
      (pushFilesFixed api (eligibleFixed rootParts fs)).failedFiles.length =
      (eligibleFixed rootParts fs).length :=
  ⟨pushFilesFixed_successFiles api _, pushFilesFixed_failedFiles api _,
    pushFilesFixed_length api _⟩

/-- C5: in the upload step of the fixed variant, an error that is not a
404 — whether from the content lookup or from the update — propagates at
once: the entry fails with that error text after exactly the calls made so
far, and no operation is ever repeated (each kind of call happens at most
once per entry and the step never sleeps). -/
theorem c5_non_rate_limit_error_fails_once (api : GhApi) (rel : String)
    (s : Nat) (m : String) :
    (api.getContents rel = GhResp.err s m → s ≠ 404 →
      sync1Fixed api rel =
        (some (strGh s m), [Ev.getC rel (GhResp.err s m)])) ∧
    (api.getContents rel = GhResp.ok → api.updateFile rel = GhResp.err s m →
      s ≠ 404 →
      sync1Fixed api rel =
        (some (strGh s m),
          [Ev.getC rel GhResp.ok, Ev.upd rel (GhResp.err s m)])) ∧
    ((sync1Fixed api rel).2.countP
        (fun e => match e with | Ev.getC _ _ => true | _ => false) ≤ 1 ∧
      (sync1Fixed api rel).2.countP
        (fun e => match e with | Ev.upd _ _ => true | _ => false) ≤ 1 ∧
      (sync1Fixed api rel).2.countP
        (fun e => match e with | Ev.cre _ _ => true | _ => false) ≤ 1 ∧
      ∀ n, Ev.slept n ∉ (sync1Fixed api rel).2) := by
  refine ⟨?_, ?_, ?_⟩
  · intro h hs
    simp [sync1Fixed, h, hs]
  · intro h hu hs
    simp [sync1Fixed, h, hu, hs]
  · rcases hg : api.getContents rel with _ | ⟨s1, m1⟩
    · rcases hu : api.updateFile rel with _ | ⟨s2, m2⟩
      · simp [sync1Fixed, hg, hu]
      · by_cases h4 : s2 = 404
        · rcases hc : api.createFile rel with _ | ⟨s3, m3⟩ <;>
            simp [sync1Fixed, hg, hu, h4, hc]
        · simp [sync1Fixed, hg, hu, h4]
    · by_cases h4 : s1 = 404
      · rcases hc : api.createFile rel with _ | ⟨s3, m3⟩ <;>
          simp [sync1Fixed, hg, h4, hc]
      · simp [sync1Fixed, hg, h4]

/-- Witness for C5 at a collaborator whose content lookup fails with a
500. -/
theorem c5_witness :
    api500.getContents "a.txt" = GhResp.err 500 "server error" ∧
    (500 : Nat) ≠ 404 ∧
    sync1Fixed api500 "a.txt" =
      (some (strGh 500 "server error"),
        [Ev.getC "a.txt" (GhResp.err 500 "server error")]) :=
  ⟨rfl, by decide,
    (c5_non_rate_limit_error_fails_once api500 "a.txt" 500 "server error").1
      rfl (by decide)⟩

/-- C6 counterexample: the claim says a push with zero eligible entries
never reports success, but the fixed variant has no empty-upload guard:
for a project whose only file lies under `.git` (so nothing is eligible)
it returns the success payload with empty lists. -/
theorem c6_counterexample_zero_entries_reports_success :
    eligibleFixed [] [fileGitConfig] = [] ∧
    pushProjectFixed apiAllOk [] [fileGitConfig] =
      PushResult.ok ⟨[], [], []⟩ := by
  constructor
  · decide
  · decide

/-- C6 amended: only github_mcpserver.py's push branch guards against an
empty upload set — when the walk queues nothing, it raises a 400
`HTTPException` reporting the skipped files; the fixed variant instead
returns the success payload with empty success and failure lists. -/
theorem c6_amended_empty_upload_guard :
    (∀ api rootParts fs, api.getRepo = GhResp.ok →
      (walkOrig rootParts fs).filesToUpload = [] →
      pushProjectOrigPre api rootParts fs =
        OrigPreResult.httpError 400 ("No files to upload. Skipped: " ++
          String.intercalate ", " (walkOrig rootParts fs).skippedFiles)) ∧
    (∀ api rootParts fs, api.getRepo = GhResp.ok →
      eligibleFixed rootParts fs = [] →
      pushProjectFixed api rootParts fs = PushResult.ok ⟨[], [], []⟩) := by
  constructor
  · intro api rootParts fs hr hw
    simp [pushProjectOrigPre, hr, origGuard, hw]
  · intro api rootParts fs hr he
    simp [pushProjectFixed, hr, he, pushFilesFixed]

/-- Witness for C6: the original guard fires for a project whose only file
is unreadable, and the fixed variant reports success on an empty project. -/
theorem c6_witness :
    apiAllOk.getRepo = GhResp.ok ∧
    (walkOrig [] [fileUnreadable]).filesToUpload = [] ∧
    pushProjectOrigPre apiAllOk [] [fileUnreadable] =
      OrigPreResult.httpError 400 ("No files to upload. Skipped: " ++
        String.intercalate ", " (walkOrig [] [fileUnreadable]).skippedFiles) ∧
    eligibleFixed [] ([] : List LocalFile) = [] ∧
    pushProjectFixed apiAllOk [] [] = PushResult.ok ⟨[], [], []⟩ :=
  ⟨rfl, by decide,
    c6_amended_empty_upload_guard.1 apiAllOk [] [fileUnreadable] rfl (by decide),
    rfl, c6_amended_empty_upload_guard.2 apiAllOk [] [] rfl rfl⟩

/-- A successful text-mode read means the file was readable and its bytes
were valid UTF-8. -/
theorem readTextUtf8_eq_none (f : LocalFile) (h : readTextUtf8 f = none) :
    f.readable = true ∧ validUtf8 f.bytes = true := by
  unfold readTextUtf8 at h
  by_cases h1 : f.readable = false
  · rw [if_pos h1] at h; cases h
  · rw [if_neg h1] at h
    by_cases h2 : validUtf8 f.bytes = false
    · rw [if_pos h2] at h; cases h
    · refine ⟨?_, ?_⟩
      · rcases Bool.dichotomy f.readable with hb | hb
        · exact absurd hb h1
        · exact hb
      · rcases Bool.dichotomy (validUtf8 f.bytes) with hb | hb
        · exact absurd hb h2
        · exact hb

/-- A successfully processed entry had a successful read. -/
theorem processEntry_none_read (api : GhApi) (f : LocalFile)
    (h : (processEntry api f).1 = none) : readTextUtf8 f = none := by
  unfold processEntry at h
  cases hr : readTextUtf8 f
  · rfl
  · rw [hr] at h; simp at h

/-- Pushing a single eligible, readable, valid-UTF-8 file with an
all-successful collaborator uploads it: one content lookup and one update
call, with the entry recorded as succeeded — whatever the file's size. -/
theorem pushSingleFileOk (f : LocalFile) (h1 : f.isFile = true)
    (h2 : hasIgnored ignoreFixed [] f = false) (h3 : f.readable = true)
    (h4 : validUtf8 f.bytes = true) :
    pushProjectFixed apiAllOk [] [f] =
      PushResult.ok ⟨[relPathStr f], [],
        [Ev.getC (relPathStr f) GhResp.ok, Ev.upd (relPathStr f) GhResp.ok]⟩ := by
  have hread : readTextUtf8 f = none := by
    unfold readTextUtf8
    rw [h3, h4]
    simp
  have hpe : processEntry apiAllOk f =
      (none, [Ev.getC (relPathStr f) GhResp.ok,
        Ev.upd (relPathStr f) GhResp.ok]) := by
    unfold processEntry
    rw [hread]
    rfl
  have helig : eligibleFixed [] [f] = [f] := by
    unfold eligibleFixed
    rw [List.filter_cons, h1, h2]
    simp
  simp [pushProjectFixed, show apiAllOk.getRepo = GhResp.ok from rfl, helig,
    pushFilesFixed, hpe]

/-- C7 counterexample: the claim says an oversized file is never uploaded,
but the fixed variant has no size check: the 100000001-byte file is walked
as eligible, read, and uploaded (one content lookup and one update call),
ending in the success list. -/
theorem c7_counterexample_oversized_uploaded :
    fileBig.bytes.length = 100000001 ∧
    MAX_CONTENT_SIZE < fileBig.bytes.length ∧
    pushProjectFixed apiAllOk [] [fileBig] =
      PushResult.ok ⟨["big.bin"], [],
        [Ev.getC "big.bin" GhResp.ok, Ev.upd "big.bin" GhResp.ok]⟩ := by
  refine ⟨fileBig_len, by rw [fileBig_len]; norm_num [MAX_CONTENT_SIZE], ?_⟩
  have hv : validUtf8 fileBig.bytes = true := by
    show validUtf8 (List.replicate 100000001 65) = true
    exact validUtf8_replicate_ascii 65 (by norm_num) _
  have h := pushSingleFileOk fileBig rfl rfl rfl hv
  have hrel : relPathStr fileBig = "big.bin" := by decide
  rw [hrel] at h
  exact h

/-- C7 amended: neither walk ever yields a path containing an ignored
component, and every entry the original variant queues for upload comes
from a readable regular file within the 100 MB ceiling — an eligible
oversized file is recorded as skipped with the size-exceeded message
instead.  The fixed variant keeps the ignore-component exclusion but has
no size check at all (see the counterexample), so its eligibility filter
guarantees only the first property. -/
theorem c7_amended_walk_ignore_and_size :
    (∀ rootParts fs p c, (p, c) ∈ (walkOrig rootParts fs).filesToUpload →
      ∃ f, f ∈ fs ∧ p = relPathStr f ∧ c = f.bytes ∧ f.isFile = true ∧
        hasIgnored ignoreOrig rootParts f = false ∧ f.readable = true ∧
        f.bytes.length ≤ MAX_CONTENT_SIZE) ∧
    (∀ rootParts fs f, f ∈ fs → f.isFile = true →
      hasIgnored ignoreOrig rootParts f = false → f.readable = true →
      MAX_CONTENT_SIZE < f.bytes.length →
      sizeSkipMsg f ∈ (walkOrig rootParts fs).skippedFiles) ∧
    (∀ rootParts fs f, f ∈ eligibleFixed rootParts fs →
      f.isFile = true ∧ hasIgnored ignoreFixed rootParts f = false) := by
  refine ⟨walkOrig_upload_mem, walkOrig_oversized_skipped, ?_⟩
  intro rootParts fs f hf
  have h2 := (List.mem_filter.mp hf).2
  simp only [Bool.and_eq_true, Bool.not_eq_true'] at h2
  exact h2

/-- Witness for C7 at the oversized fixture: the original walk records the
size-exceeded skip message for it. -/
theorem c7_witness :
    fileBig ∈ [fileBig] ∧ fileBig.isFile = true ∧
    hasIgnored ignoreOrig [] fileBig = false ∧ fileBig.readable = true ∧
    MAX_CONTENT_SIZE < fileBig.bytes.length ∧
    sizeSkipMsg fileBig ∈ (walkOrig [] [fileBig]).skippedFiles :=
  ⟨List.mem_singleton_self _, rfl, rfl, rfl,
    by rw [fileBig_len]; norm_num [MAX_CONTENT_SIZE],
    c7_amended_walk_ignore_and_size.2.1 [] [fileBig] fileBig
      (List.mem_singleton_self _) rfl rfl rfl
      (by rw [fileBig_len]; norm_num [MAX_CONTENT_SIZE])⟩

/-- C9: `invoke_tool` validates the required `create_file` inputs with
`not all([...])`, i.e. Python truthiness, so a content supplied as the
empty string is rejected with the same 400 missing-parameter error as an
absent content, before any external call is made (the call trace is
empty). -/
theorem c9_empty_string_rejected_like_missing (api : GhApi)
    (rn fp cm : Option String) :
    invokeCreateFile api ⟨rn, fp, some "", cm⟩ =
      (InvokeResult.httpError 400
        "repo_name, file_path, and content are required", []) ∧
    invokeCreateFile api ⟨rn, fp, none, cm⟩ =
      invokeCreateFile api ⟨rn, fp, some "", cm⟩ := by
  have h1 : truthyOptStr (some "") = false := rfl
  have h2 : truthyOptStr none = false := rfl
  constructor
  · simp [invokeCreateFile, h1]
  · simp [invokeCreateFile, h1, h2]

/-- C10: in the fixed variant every file is read in text mode as UTF-8, so
an entry whose bytes are not valid UTF-8 fails at the read — it makes no
external call and is recorded in `failed_files` with the decode error —
and every entry in `success_files` comes from a readable file whose bytes
decoded as UTF-8. -/
theorem c10_invalid_utf8_recorded_failed_never_uploaded (api : GhApi)
    (fs : List LocalFile) (f : LocalFile) :
    (f.readable = true → validUtf8 f.bytes = false →
      processEntry api f = (some "UnicodeDecodeError", [])) ∧
    (∀ s, s ∈ (pushFilesFixed api fs).successFiles →
      ∃ g, g ∈ fs ∧ s = relPathStr g ∧ g.readable = true ∧
        validUtf8 g.bytes = true) ∧
    (f ∈ fs → f.readable = true → validUtf8 f.bytes = false →
      (relPathStr f ++ ": " ++ "UnicodeDecodeError") ∈
        (pushFilesFixed api fs).failedFiles) := by
  have hfail : f.readable = true → validUtf8 f.bytes = false →
      processEntry api f = (some "UnicodeDecodeError", []) := by
    intro h1 h2
    unfold processEntry readTextUtf8
    rw [h1, h2]
    simp
  refine ⟨hfail, ?_, ?_⟩
  · intro s hs
    rw [pushFilesFixed_successFiles] at hs
    obtain ⟨g, hgf, hgs⟩ := List.mem_map.mp hs
    have hmem := (List.mem_filter.mp hgf).1
    have hok := (List.mem_filter.mp hgf).2
    have hread := processEntry_none_read api g (Option.isNone_iff_eq_none.mp hok)
    obtain ⟨hr, hv⟩ := readTextUtf8_eq_none g hread
    exact ⟨g, hmem, hgs.symm, hr, hv⟩
  · intro hmem h1 h2
    rw [pushFilesFixed_failedFiles]
    apply List.mem_map.mpr
    refine ⟨f, List.mem_filter.mpr ⟨hmem, ?_⟩, ?_⟩
    · rw [hfail h1 h2]
      rfl
    · rw [hfail h1 h2]
      rfl

/-- Witness for C10 at the invalid-UTF-8 fixture. -/
theorem c10_witness :
    fileBad.readable = true ∧ validUtf8 fileBad.bytes = false ∧
    processEntry apiAllOk fileBad = (some "UnicodeDecodeError", []) ∧
    ("bad.bin: UnicodeDecodeError") ∈
      (pushFilesFixed apiAllOk [fileBad]).failedFiles :=
  ⟨rfl, by decide,
    (c10_invalid_utf8_recorded_failed_never_uploaded apiAllOk [fileBad]
      fileBad).1 rfl (by decide),
    (c10_invalid_utf8_recorded_failed_never_uploaded apiAllOk [fileBad]
      fileBad).2.2 (List.mem_singleton_self _) rfl (by decide)⟩

end GithubMcp
